import Mathlib

/-!
A verification development for the postgres_exporter metric-mapping and
scrape engine (cmd/postgres_exporter/main.go).  The Go code is shallowly
embedded: Go maps are modelled as association lists whose order stands for
one (unspecified) iteration order of the map, `float64` database values are
modelled symbolically as either an exact rational or NaN, `time.Time`
values by their Unix seconds, and fallible operations return `Except` /
`Option`.  Standard-library collaborators (`strconv.ParseFloat`,
`time.ParseDuration`, the `fmt` verbs, the semver parser) are modelled from
their documented behaviour at the level of detail the program relies on.
-/

set_option linter.unusedVariables false

namespace PG

/-- A semantic version as produced by the blang/semver parser for the
version tokens extracted from a PostgreSQL version banner (the program
never feeds it pre-release or build metadata). -/
structure Version where
  major : Nat
  minor : Nat
  patch : Nat
deriving DecidableEq, Repr

/-- Strict semver ordering (major, then minor, then patch). -/
def vlt (a b : Version) : Bool :=
  Nat.blt a.major b.major ||
    (a.major == b.major && (Nat.blt a.minor b.minor ||
      (a.minor == b.minor && Nat.blt a.patch b.patch)))

/-- A `semver.Range` is a predicate on versions. -/
def Range := Version → Bool

/-- Models a range written as a single lower bound, e.g. `>=10.0.0`. -/
def rangeGE (w : Version) : Range := fun v => !(vlt v w)

/-- Models a range written as a single upper bound, e.g. `<9.2.0`. -/
def rangeLT (w : Version) : Range := fun v => vlt v w

/-- Models a two-sided range, e.g. `>=9.2.0 <10.0.0`. -/
def rangeGELT (lo hi : Version) : Range := fun v => !(vlt v lo) && vlt v hi

/-- A float64 database value, modelled symbolically: either an exact
rational number or NaN (the only irregular float the program produces). -/
inductive FloatVal where
  | num (q : ℚ)
  | nan
deriving DecidableEq, Repr

/-- One `driver.Value` as handed to the row-conversion helpers by
database/sql: int64, float64, bool, []byte, string, time.Time or nil. -/
inductive GoValue where
  | int (v : Int)
  | float (v : FloatVal)
  | bool (b : Bool)
  | bytes (s : String)
  | str (s : String)
  | time (unixSec : Int)
  | null
deriving DecidableEq, Repr

/-- Numeric value of a list of decimal digit characters. -/
def digitsToNat (ds : List Char) : Nat :=
  ds.foldl (fun a c => a * 10 + (c.toNat - 48)) 0

/-- Models `strconv.ParseFloat` on ordinary decimal notation: optional
sign, integer digits, optional fraction, optional exponent, at least one
digit in mantissa.  The binary rounding of the resulting float64 is
abstracted away by returning the exact decimal value. -/
def parseDecFloat (s : String) : Option ℚ :=
  let p : ℚ × List Char :=
    match s.data with
    | '-' :: r => (-1, r)
    | '+' :: r => (1, r)
    | r => (1, r)
  let sgn := p.1
  let ip := p.2.takeWhile Char.isDigit
  let r1 := p.2.dropWhile Char.isDigit
  let pf : List Char × List Char :=
    match r1 with
    | '.' :: r => (r.takeWhile Char.isDigit, r.dropWhile Char.isDigit)
    | r => ([], r)
  let fp := pf.1
  if ip.isEmpty && fp.isEmpty then none
  else
    let mant : ℚ := (digitsToNat ip : ℚ) + (digitsToNat fp : ℚ) / ((10 : ℚ) ^ fp.length)
    match pf.2 with
    | [] => some (sgn * mant)
    | e :: r3 =>
      if e == 'e' || e == 'E' then
        let pe : Bool × List Char :=
          match r3 with
          | '-' :: r => (true, r)
          | '+' :: r => (false, r)
          | r => (false, r)
        let ed := pe.2.takeWhile Char.isDigit
        let r5 := pe.2.dropWhile Char.isDigit
        if ed.isEmpty || !r5.isEmpty then none
        else
          let ex : ℚ := (10 : ℚ) ^ digitsToNat ed
          some (sgn * mant * (if pe.1 then 1 / ex else ex))
      else none

/-- Embeds `dbToFloat64`: convert database/sql types to float64s for
Prometheus consumption.  Null types are mapped to NaN (and success);
string and byte-string types are parsed as decimal floats; any other
shape is NaN and not-ok. -/
def dbToFloat64 : GoValue → FloatVal × Bool
  | .int v => (.num (v : ℚ), true)
  | .float v => (v, true)
  | .time v => (.num (v : ℚ), true)
  | .bytes s =>
    match parseDecFloat s with
    | some q => (.num q, true)
    | none => (.nan, false)
  | .str s =>
    match parseDecFloat s with
    | some q => (.num q, true)
    | none => (.nan, false)
  | .null => (.nan, true)
  | .bool _ => (.nan, false)

/-- Digits of the fractional part `r / den` by long division, with fuel
bounding the number of emitted digits. -/
def fracDigitsAux : Nat → Nat → Nat → String
  | 0, _, _ => ""
  | _, 0, _ => ""
  | fuel + 1, r, den =>
    toString (r * 10 / den) ++ fracDigitsAux fuel (r * 10 % den) den

/-- Models the fmt package rendering (verb %v) of a float64; exact
shortest-form binary formatting is abstracted to the exact decimal
expansion of the modelled value. -/
def goFormatFloat : FloatVal → String
  | .nan => "NaN"
  | .num q =>
    let sgn := if q < 0 then "-" else ""
    let n := q.num.natAbs
    if n % q.den = 0 then sgn ++ toString (n / q.den)
    else sgn ++ toString (n / q.den) ++ "." ++ fracDigitsAux 17 (n % q.den) q.den

/-- Embeds `dbToString`: convert database/sql types to strings for
Prometheus labels.  Null types are mapped to empty strings; the default
case returns the empty string and not-ok. -/
def dbToString : GoValue → String × Bool
  | .int v => (toString v, true)
  | .float v => (goFormatFloat v, true)
  | .time v => (toString v, true)
  | .null => ("", true)
  | .bytes s => (s, true)
  | .str s => (s, true)
  | .bool _ => ("", false)

/-- Nanoseconds per duration unit, from time.ParseDuration's unit table. -/
def unitNanos (u : List Char) : Option Int :=
  if u == ['n', 's'] then some 1
  else if u == ['u', 's'] then some 1000
  else if u == ['µ', 's'] then some 1000
  else if u == ['μ', 's'] then some 1000
  else if u == ['m', 's'] then some 1000000
  else if u == ['s'] then some 1000000000
  else if u == ['m'] then some 60000000000
  else if u == ['h'] then some 3600000000000
  else none

/-- Characters that belong to a duration unit token (not digits, not a
decimal point). -/
def unitChar (c : Char) : Bool := !c.isDigit && c != '.'

/-- One pass of time.ParseDuration's term loop: each term is decimal
digits, an optional fraction, and a unit.  Fuel bounds the number of
terms; each term consumes at least its (non-empty) unit, so
`length + 1` fuel always suffices. -/
def parseDurTerms : Nat → List Char → Option Int
  | _, [] => some 0
  | 0, _ => none
  | fuel + 1, cs =>
    let ip := cs.takeWhile Char.isDigit
    let r1 := cs.dropWhile Char.isDigit
    let pf : List Char × List Char :=
      match r1 with
      | '.' :: r => (r.takeWhile Char.isDigit, r.dropWhile Char.isDigit)
      | r => ([], r)
    let fp := pf.1
    if ip.isEmpty && fp.isEmpty then none
    else
      let u := pf.2.takeWhile unitChar
      let r3 := pf.2.dropWhile unitChar
      match unitNanos u with
      | none => none
      | some unit =>
        let term : Int :=
          (digitsToNat ip : Int) * unit + (digitsToNat fp : Int) * unit / ((10 : Int) ^ fp.length)
        match parseDurTerms fuel r3 with
        | none => none
        | some rest => some (term + rest)

/-- Models `time.ParseDuration`, returning the duration in nanoseconds:
an optional sign, the special case "0", then one or more
number-with-unit terms.  int64 overflow is not modelled. -/
def parseDuration (s : String) : Option Int :=
  let p : Bool × List Char :=
    match s.data with
    | '-' :: r => (true, r)
    | '+' :: r => (false, r)
    | r => (false, r)
  let neg := p.1
  let cs := p.2
  if cs == ['0'] then some 0
  else if cs.isEmpty then none
  else
    match parseDurTerms (cs.length + 1) cs with
    | none => none
    | some v => some (if neg then -v else v)

/-- Embeds the `ColumnUsage` enum: how a queried row is converted to a
Prometheus metric. -/
inductive ColumnUsage where
  | DISCARD
  | LABEL
  | COUNTER
  | GAUGE
  | MAPPEDMETRIC
  | DURATION
deriving DecidableEq, Repr

/-- Embeds `stringToColumnUsage`: convert a string to the corresponding
ColumnUsage; unknown strings are an error. -/
def stringToColumnUsage (s : String) : Except String ColumnUsage :=
  match s with
  | "DISCARD" => .ok .DISCARD
  | "LABEL" => .ok .LABEL
  | "COUNTER" => .ok .COUNTER
  | "GAUGE" => .ok .GAUGE
  | "MAPPEDMETRIC" => .ok .MAPPEDMETRIC
  | "DURATION" => .ok .DURATION
  | _ => .error ("wrong ColumnUsage given : " ++ s)

/-- Embeds `ColumnMapping`: the user-friendly representation of a
prometheus descriptor map.  A nil metric_mapping is modelled by the empty
list (nil-map lookups and empty-map lookups agree in Go). -/
structure ColumnMapping where
  usage : ColumnUsage
  description : String
  mapping : List (String × ℚ)
  supportedVersions : Option Range

/-- A prometheus descriptor, kept at the level the program uses it:
fully-qualified name, help text, and variable label names. -/
structure Desc where
  fqName : String
  help : String
  variableLabels : List String
deriving DecidableEq, Repr

/-- The prometheus value type attached to a compiled column; `unset`
stands for the Go zero value carried by discarded columns. -/
inductive VType where
  | counter
  | gauge
  | untyped
  | unset
deriving DecidableEq, Repr

/-- Embeds `MetricMap`: the compiled description a given column is mapped
to.  The conversion result is (value, ok, loggedError), the last
component recording whether the conversion logs at error level. -/
structure MetricMap where
  discard : Bool
  vtype : VType
  desc : Option Desc
  conversion : GoValue → FloatVal × Bool × Bool

/-- Embeds `MetricMapNamespace`: metric maps grouped under a shared set
of labels. -/
structure MetricMapNamespace where
  labels : List String
  columnMappings : List (String × MetricMap)

/-- Word characters of the regexp class backslash-w. -/
def wordChar (c : Char) : Bool := c.isAlphanum || c == '_'

/-- The blang/semver rule for one numeric component: non-empty digits
with no leading zeroes (a single "0" is allowed). -/
def okNumToken : List Char → Bool
  | [] => false
  | [_] => true
  | c :: _ => c != '0'

/-- An optional regex group of a dot followed by digits; returns the
digits (empty when the group does not match) and the rest. -/
def optDotDigits : List Char → List Char × List Char
  | '.' :: r =>
    let ds := r.takeWhile Char.isDigit
    if ds.isEmpty then ([], '.' :: r) else (ds, r.dropWhile Char.isDigit)
  | r => ([], r)

/-- Embeds `parseVersion`: apply the anchored regex
caret-word-space-major(.minor)?(.patch)? to the version banner and feed
the captured token to semver.ParseTolerant (which pads missing
components with zeroes and rejects leading zeroes). -/
def parseVersion (s : String) : Except String Version :=
  let cs := s.data
  let w := cs.takeWhile wordChar
  let r1 := cs.dropWhile wordChar
  match r1 with
  | ' ' :: r2 =>
    if w.isEmpty then
      .error ("Could not find a postgres version in string: " ++ s)
    else
      let ds := r2.takeWhile Char.isDigit
      let r3 := r2.dropWhile Char.isDigit
      if ds.isEmpty then
        .error ("Could not find a postgres version in string: " ++ s)
      else
        let pm := optDotDigits r3
        let pp := optDotDigits pm.2
        if okNumToken ds && (pm.1.isEmpty || okNumToken pm.1)
            && (pp.1.isEmpty || okNumToken pp.1) then
          .ok ⟨digitsToNat ds, digitsToNat pm.1, digitsToNat pp.1⟩
        else
          .error "Invalid character(s) found in number"
  | _ => .error ("Could not find a postgres version in string: " ++ s)

/-- Whether an Except value is a success. -/
def exceptIsOk {ε α : Type} : Except ε α → Bool
  | .ok _ => true
  | .error _ => false

/-- The compiled entry shared by discarded columns: present, marked
discard, with the constant conversion (NaN, ok, no error logged). -/
def discardMetricMap : MetricMap :=
  { discard := true, vtype := .unset, desc := none,
    conversion := fun _ => (.nan, true, false) }

/-- The version-compatibility test of `makeDescMap`: a column with a
supportedVersions range that rejects the target version is forced to
discard. -/
def versionIncompatible (cm : ColumnMapping) (v : Version) : Bool :=
  match cm.supportedVersions with
  | some r => !(r v)
  | none => false

/-- The COUNTER/GAUGE conversion closure: defer to dbToFloat64 (which
never logs at error level). -/
def float64Conv (x : GoValue) : FloatVal × Bool × Bool :=
  ((dbToFloat64 x).1, (dbToFloat64 x).2, false)

/-- The body of the DURATION conversion closure once the raw value is
known to be textual: the sentinel "-1" fails quietly, parse failures fail
with an error log, successes are reported in milliseconds (int64
division of nanoseconds, truncating). -/
def durationStringConv (s : String) : FloatVal × Bool × Bool :=
  if s == "-1" then (.nan, false, false)
  else
    match parseDuration s with
    | none => (.nan, false, true)
    | some d => (.num ((d.tdiv 1000000 : Int) : ℚ), true, false)

/-- The DURATION conversion closure: byte-strings and strings are
textual durations; any other shape logs an error and fails. -/
def durationConv (x : GoValue) : FloatVal × Bool × Bool :=
  match x with
  | .bytes s => durationStringConv s
  | .str s => durationStringConv s
  | _ => (.nan, false, true)

/-- The MAPPEDMETRIC conversion closure: only a string raw value is
accepted and looked up in the column's enum mapping. -/
def mappedConv (mapping : List (String × ℚ)) (x : GoValue) : FloatVal × Bool × Bool :=
  match x with
  | .str t =>
    match mapping.lookup t with
    | some val => (.num val, true, false)
    | none => (.nan, false, false)
  | _ => (.nan, false, false)

/-- The per-column body of `makeDescMap`'s inner loop: version-gate the
column, then compile it according to its declared usage. -/
def compileColumn (pgVersion : Version) (ns : String) (constLabels : List String)
    (columnName : String) (cm : ColumnMapping) : MetricMap :=
  if versionIncompatible cm pgVersion then discardMetricMap
  else
    match cm.usage with
    | .DISCARD => discardMetricMap
    | .LABEL => discardMetricMap
    | .COUNTER =>
      { discard := false, vtype := .counter,
        desc := some ⟨ns ++ "_" ++ columnName, cm.description, constLabels⟩,
        conversion := float64Conv }
    | .GAUGE =>
      { discard := false, vtype := .gauge,
        desc := some ⟨ns ++ "_" ++ columnName, cm.description, constLabels⟩,
        conversion := float64Conv }
    | .MAPPEDMETRIC =>
      { discard := false, vtype := .gauge,
        desc := some ⟨ns ++ "_" ++ columnName, cm.description, constLabels⟩,
        conversion := mappedConv cm.mapping }
    | .DURATION =>
      { discard := false, vtype := .gauge,
        desc := some ⟨ns ++ "_" ++ columnName ++ "_milliseconds", cm.description, constLabels⟩,
        conversion := durationConv }

/-- The label-collection loop of `makeDescMap`: the names of the columns
whose usage is LABEL, in iteration order. -/
def labelColumns (mappings : List (String × ColumnMapping)) : List String :=
  mappings.filterMap (fun p => if p.2.usage = .LABEL then some p.1 else none)

/-- The per-namespace body of `makeDescMap`. -/
def makeDescMapNS (pgVersion : Version) (ns : String)
    (mappings : List (String × ColumnMapping)) : MetricMapNamespace :=
  let constLabels := labelColumns mappings
  { labels := constLabels,
    columnMappings :=
      mappings.map (fun p => (p.1, compileColumn pgVersion ns constLabels p.1 p.2)) }

/-- Embeds `makeDescMap`: turn the MetricMap column mapping into a
prometheus descriptor mapping.  The association-list order models one
iteration order of the corresponding Go maps. -/
def makeDescMap (pgVersion : Version)
    (metricMaps : List (String × List (String × ColumnMapping))) :
    List (String × MetricMapNamespace) :=
  metricMaps.map (fun p => (p.1, makeDescMapNS pgVersion p.1 p.2))

/-- Embeds `OverrideQuery`: a version-ranged replacement query for a
namespace. -/
structure OverrideQuery where
  versionRange : Range
  query : String

/-- The inner loop of `makeQueryOverrideMap`: scan the candidates in
order, stopping at the first whose range accepts the version; when none
match, the namespace maps to the empty string (disabled). -/
def overrideFor (pgVersion : Version) : List OverrideQuery → String
  | [] => ""
  | d :: rest => if d.versionRange pgVersion then d.query else overrideFor pgVersion rest

/-- Embeds `makeQueryOverrideMap`: convert the query override file to the
version-specific query override file for the exporter. -/
def makeQueryOverrideMap (pgVersion : Version)
    (queryOverrides : List (String × List OverrideQuery)) : List (String × String) :=
  queryOverrides.map (fun p => (p.1, overrideFor pgVersion p.2))

/-- Go map assignment on an association list: replace the value at an
existing key, or append a new binding. -/
def setKey {β : Type} : List (String × β) → String → β → List (String × β)
  | [], k, v => [(k, v)]
  | (a, b) :: t, k, v => if a = k then (a, v) :: t else (a, b) :: setKey t k v

/-- A YAML value as decoded by gopkg.in/yaml.v2 into interface values. -/
inductive Yaml where
  | str (s : String)
  | int (n : Int)
  | bool (b : Bool)
  | list (items : List Yaml)
  | map (entries : List (Yaml × Yaml))
  | null

/-- How one run of `addQueries` can end: a normal merge, an error return
(yaml unmarshalling failure or an unknown usage string), or a crash from
a failed interface type assertion on a structurally unexpected document
(the Go code asserts without the comma-ok form, so such documents panic
instead of returning an error). -/
inductive AQOutcome where
  | ok
  | err (msg : String)
  | crash
deriving DecidableEq, Repr

/-- Internal failure of the parsing phase of `addQueries`: an error
return carrying a message, or a would-panic type assertion. -/
inductive AQFail where
  | badUsage (msg : String)
  | shape

/-- The attribute loop of `addQueries`: fold the usage/description keys
of one column's attribute map into a zero-valued ColumnMapping.
Non-string attribute keys or values would fail a type assertion. -/
def parseAttrs : List (Yaml × Yaml) → ColumnMapping → Except AQFail ColumnMapping
  | [], cm => .ok cm
  | (k, v) :: rest, cm =>
    match k with
    | .str "usage" =>
      match v with
      | .str sv =>
        match stringToColumnUsage sv with
        | .ok u => parseAttrs rest { cm with usage := u }
        | .error e => .error (.badUsage e)
      | _ => .error .shape
    | .str "description" =>
      match v with
      | .str sv => parseAttrs rest { cm with description := sv }
      | _ => .error .shape
    | .str _ => parseAttrs rest cm
    | _ => .error .shape

/-- The zero value of Go's ColumnMapping struct. -/
def zeroColumnMapping : ColumnMapping :=
  { usage := .DISCARD, description := "", mapping := [], supportedVersions := none }

/-- The column loop of `addQueries`: each entry of one element of the
"metrics" list maps a column name to its attribute map; the parsed
ColumnMapping (with nil enum mapping and nil version range) is stored
into the metric's map. -/
def parseColEntries (metric : String) :
    List (Yaml × Yaml) → List (String × List (String × ColumnMapping)) →
    Except AQFail (List (String × List (String × ColumnMapping)))
  | [], mms => .ok mms
  | (n, a) :: rest, mms =>
    match n with
    | .str name =>
      match a with
      | .map attrs =>
        match parseAttrs attrs zeroColumnMapping with
        | .ok cm0 =>
          let cm := { cm0 with mapping := [], supportedVersions := none }
          let cur := (mms.lookup metric).getD []
          parseColEntries metric rest (setKey mms metric (setKey cur name cm))
        | .error e => .error e
      | _ => .error .shape
    | _ => .error .shape

/-- The "metrics" list loop of `addQueries`: every element must itself
be a map of column entries. -/
def parseMetricsList (metric : String) :
    List Yaml → List (String × List (String × ColumnMapping)) →
    Except AQFail (List (String × List (String × ColumnMapping)))
  | [], mms => .ok mms
  | c :: rest, mms =>
    match c with
    | .map colEntries =>
      match parseColEntries metric colEntries mms with
      | .ok mms2 => parseMetricsList metric rest mms2
      | .error e => .error e
    | _ => .error .shape

/-- The per-namespace switch of `addQueries`: a "query" key records raw
override text, a "metrics" key records column mappings, other keys are
ignored; a non-string key would fail a type assertion. -/
def parseSpecs (metric : String) :
    List (Yaml × Yaml) →
    List (String × List (String × ColumnMapping)) × List (String × String) →
    Except AQFail (List (String × List (String × ColumnMapping)) × List (String × String))
  | [], st => .ok st
  | (k, v) :: rest, st =>
    match k with
    | .str "query" =>
      match v with
      | .str q => parseSpecs metric rest (st.1, setKey st.2 metric q)
      | _ => .error .shape
    | .str "metrics" =>
      match v with
      | .list items =>
        match parseMetricsList metric items st.1 with
        | .ok mms2 => parseSpecs metric rest (mms2, st.2)
        | .error e => .error e
      | _ => .error .shape
    | .str _ => parseSpecs metric rest st
    | _ => .error .shape

/-- The outer loop of `addQueries` over the unmarshalled document: each
namespace's specs must be a map. -/
def parseExtra :
    List (String × Yaml) →
    List (String × List (String × ColumnMapping)) × List (String × String) →
    Except AQFail (List (String × List (String × ColumnMapping)) × List (String × String))
  | [], st => .ok st
  | (metric, specs) :: rest, st =>
    match specs with
    | .map entries =>
      match parseSpecs metric entries st with
      | .ok st2 => parseExtra rest st2
      | .error e => .error e
    | _ => .error .shape

/-- Embeds `addQueries`: parse a user query-definition document and merge
the resulting compiled namespaces and raw override queries into the
exporter's maps.  The first argument models the result of
yaml.Unmarshal on the document bytes; the returned triple carries the
final states of the two (in Go, mutated-in-place) maps and how the call
ended. -/
def addQueries (unmarshalled : Except String (List (String × Yaml)))
    (pgVersion : Version)
    (exporterMap : List (String × MetricMapNamespace))
    (queryOverrideMap : List (String × String)) :
    List (String × MetricMapNamespace) × List (String × String) × AQOutcome :=
  match unmarshalled with
  | .error e => (exporterMap, queryOverrideMap, .err e)
  | .ok extra =>
    match parseExtra extra ([], []) with
    | .error (.badUsage m) => (exporterMap, queryOverrideMap, .err m)
    | .error .shape => (exporterMap, queryOverrideMap, .crash)
    | .ok st =>
      let compiled := makeDescMap pgVersion st.1
      (compiled.foldl (fun acc p => setKey acc p.1 p.2) exporterMap,
       st.2.foldl (fun acc p => setKey acc p.1 p.2) queryOverrideMap,
       .ok)

/-- One executed query's outcome as seen through database/sql: the column
names and the rows, each row either scanning into driver values or
failing. -/
structure QueryResult where
  columns : List String
  rows : List (Except String (List GoValue))

/-- One emitted telemetry sample: descriptor name, label values, value
and value type. -/
structure Sample where
  name : String
  labels : List String
  value : FloatVal
  vtype : VType
deriving DecidableEq, Repr

/-- The column-index map of `queryNamespaceMapping`: name to position,
later occurrences of a duplicated name winning. -/
def buildIdx (columns : List String) : List (String × Nat) :=
  columns.enum.foldl (fun acc p => setKey acc p.2 p.1) []

/-- The label-resolution loop of `queryNamespaceMapping`: each label
column's value is rendered with dbToString from the row position the
index map gives; a missing name yields the Go zero index 0, and the
not-ok result of dbToString is ignored. -/
def resolveLabels (labelNames : List String) (columnIdx : List (String × Nat))
    (row : List GoValue) : List String :=
  labelNames.map (fun name =>
    (dbToString (row.getD ((columnIdx.lookup name).getD 0) GoValue.null)).1)

/-- The per-row column loop of `queryNamespaceMapping`: known compiled
columns are skipped when discarded and otherwise converted with
dbToFloat64; unknown columns are emitted as untyped metrics when the
same coercion succeeds.  Returns the emitted samples and the non-fatal
errors, in order. -/
def processColumns (ns : String) (mapping : MetricMapNamespace)
    (labels : List String) (row : List GoValue) :
    List (Nat × String) → List Sample × List String
  | [] => ([], [])
  | (idx, columnName) :: rest =>
    let acc := processColumns ns mapping labels row rest
    match mapping.columnMappings.lookup columnName with
    | some metricMapping =>
      if metricMapping.discard then acc
      else
        let cv := dbToFloat64 (row.getD idx GoValue.null)
        if cv.2 then
          ({ name := ((metricMapping.desc).map Desc.fqName).getD "",
             labels := labels, value := cv.1, vtype := metricMapping.vtype } :: acc.1,
           acc.2)
        else
          (acc.1, ("Unexpected error parsing column: " ++ ns ++ " " ++ columnName) :: acc.2)
    | none =>
      let cv := dbToFloat64 (row.getD idx GoValue.null)
      if cv.2 then
        ({ name := ns ++ "_" ++ columnName, labels := labels,
           value := cv.1, vtype := .untyped } :: acc.1,
         acc.2)
      else
        (acc.1, ("Unparseable column type - discarding: " ++ ns ++ " " ++ columnName) :: acc.2)

/-- The row loop of `queryNamespaceMapping`: a scan failure is fatal for
the namespace (samples already emitted to the channel stay emitted, the
collected non-fatal errors are dropped, as in the Go early return). -/
def processRows (ns : String) (mapping : MetricMapNamespace)
    (columns : List String) (columnIdx : List (String × Nat)) :
    List (Except String (List GoValue)) → List Sample × List String × Option String
  | [] => ([], [], none)
  | .error e :: _ => ([], [], some ("Error retrieving rows: " ++ ns ++ " " ++ e))
  | .ok row :: rest =>
    let labels := resolveLabels mapping.labels columnIdx row
    let here := processColumns ns mapping labels row columns.enum
    match processRows ns mapping columns columnIdx rest with
    | (ss, es, none) => (here.1 ++ ss, here.2 ++ es, none)
    | (ss, _, some f) => (here.1 ++ ss, [], some f)

/-- Run one query and convert its rows. -/
def runAndProcess (run : String → Except String QueryResult) (query ns : String)
    (mapping : MetricMapNamespace) : List Sample × List String × Option String :=
  match run query with
  | .error e => ([], [], some ("Error running query on database: " ++ ns ++ " " ++ e))
  | .ok res => processRows ns mapping res.columns (buildIdx res.columns) res.rows

/-- Embeds `queryNamespaceMapping`: query within a namespace mapping and
emit metrics.  `run` models the database connection (executing a
statement and reading its column list, either of which can fail).
Returns the emitted samples, the non-fatal errors and the fatal error,
if any.  An override entry that is present but empty disables the
namespace: no samples and no errors. -/
def queryNamespaceMapping (run : String → Except String QueryResult)
    (ns : String) (mapping : MetricMapNamespace)
    (queryOverrides : List (String × String)) :
    List Sample × List String × Option String :=
  match queryOverrides.lookup ns with
  | some query =>
    if query = "" then ([], [], none)
    else runAndProcess run query ns mapping
  | none => runAndProcess run ("SELECT * FROM " ++ ns ++ ";") ns mapping

/-- A spec-level reading of the version banner contract: the free text
contains a dotted numeric version token somewhere. -/
def containsDottedToken (s : String) : Bool :=
  s.data.tails.any fun t =>
    match t with
    | d1 :: '.' :: d2 :: _ => d1.isDigit && d2.isDigit
    | _ => false

/-- The resolved version 9.6.2 used in concrete scenarios. -/
def ver962 : Version := ⟨9, 6, 2⟩

/-- The resolved version 9.2.0 used in concrete scenarios. -/
def ver920 : Version := ⟨9, 2, 0⟩

/-- A LABEL column with no version gate. -/
def labelCM (d : String) : ColumnMapping := ⟨.LABEL, d, [], none⟩

/-- A COUNTER column with no version gate. -/
def counterCM (d : String) : ColumnMapping := ⟨.COUNTER, d, [], none⟩

/-- Excerpt of builtinMetricMaps: the version-gated lag column of
pg_stat_replication (gated to 10.0.0 and later) next to an ungated label
column. -/
def replicationCatalogExcerpt : List (String × List (String × ColumnMapping)) :=
  [("pg_stat_replication",
    [("state", labelCM "Current WAL sender state"),
     ("pg_wal_lsn_diff",
      ⟨.GAUGE, "Lag in bytes between master and slave", [], some (rangeGE ⟨10, 0, 0⟩)⟩)])]

/-- A user-style catalog with a DURATION column, as the user query loader
can produce. -/
def durationCatalog : List (String × List (String × ColumnMapping)) :=
  [("user_ns", [("backup_duration", ⟨.DURATION, "duration of the last backup", [], none⟩)])]

/-- One override catalog whose only candidate requires 10.0.0 or later,
as in the intentionally-disabled-namespace scenario. -/
def overridesGE10 : List (String × List OverrideQuery) :=
  [("pg_stat_activity", [⟨rangeGE ⟨10, 0, 0⟩, "SELECT something version specific"⟩])]

/-- An override catalog where two candidates accept the target version,
preceded by one that does not. -/
def overridesMulti : List (String × List OverrideQuery) :=
  [("pg_stat_replication",
    [⟨rangeGE ⟨10, 0, 0⟩, "query for 10 and later"⟩,
     ⟨rangeGE ⟨9, 2, 0⟩, "query for 9.2 and later"⟩,
     ⟨rangeGE ⟨0, 0, 1⟩, "query for anything"⟩])]

/-- One enumeration of a two-label-column namespace map. -/
def twoLabelCatalogA : List (String × List (String × ColumnMapping)) :=
  [("ns", [("a", labelCM ""), ("b", labelCM "")])]

/-- The other enumeration of the same namespace map. -/
def twoLabelCatalogB : List (String × List (String × ColumnMapping)) :=
  [("ns", [("b", labelCM ""), ("a", labelCM "")])]

/-- An unmarshalled user query document whose single metric column
carries the unknown usage string BOGUS. -/
def bogusUserDoc : List (String × Yaml) :=
  [("random_namespace",
    .map [(.str "query", .str "fake query"),
          (.str "metrics",
            .list [.map [(.str "a",
              .map [(.str "usage", .str "BOGUS"), (.str "description", .str "test")])]])])]

/-- A well-formed compiled namespace used as pre-existing state in merge
scenarios. -/
def preexistingExporterMap : List (String × MetricMapNamespace) :=
  makeDescMap ver962 replicationCatalogExcerpt

/-- A catalog whose label column does not occur in the query result of
the scrape scenario below. -/
def mismatchedLabelCatalog : List (String × ColumnMapping) :=
  [("missing_col", labelCM "a label the query does not return"),
   ("val", counterCM "a counter the query does return")]

/-- The database model of the scrape scenario: the default query returns
one row with a single column "val". -/
def mismatchedLabelRun : String → Except String QueryResult :=
  fun _ => .ok ⟨["val"], [.ok [.int 7]]⟩

/-! ### Association-list helper lemmas -/

/-- Looking a key up in a key-preserving map of an association list. -/
theorem lookup_map_pair {β γ : Type} (f : String → β → γ) (l : List (String × β)) (k : String) :
    (l.map (fun p => (p.1, f p.1 p.2))).lookup k = (l.lookup k).map (f k) := by
  induction l with
  | nil => rfl
  | cons hd tl ih =>
    obtain ⟨a, b⟩ := hd
    simp only [List.map_cons, List.lookup_cons]
    cases h : (k == a) with
    | true =>
      have hk : k = a := eq_of_beq h
      subst hk
      rfl
    | false => exact ih

/-- Association-list lookup is invariant under permutation when the keys
are distinct. -/
theorem lookup_perm {β : Type} {l1 l2 : List (String × β)} (h : l1.Perm l2) :
    ∀ (nd : (l1.map Prod.fst).Nodup) (k : String), l1.lookup k = l2.lookup k := by
  induction h with
  | nil => intro _ _; rfl
  | cons x h ih =>
    rename_i t1 t2
    intro nd k
    obtain ⟨a, b⟩ := x
    have nd' : (List.map Prod.fst t1).Nodup := by
      simp only [List.map_cons, List.nodup_cons] at nd
      exact nd.2
    simp only [List.lookup_cons]
    cases k == a with
    | true => rfl
    | false => exact ih nd' k
  | swap x y l =>
    intro nd k
    obtain ⟨a, b⟩ := x
    obtain ⟨c, d⟩ := y
    have hca : c ≠ a := by
      simp only [List.map_cons, List.nodup_cons, List.mem_cons] at nd
      intro hh
      exact nd.1 (Or.inl hh)
    simp only [List.lookup_cons]
    cases h1 : (k == c) with
    | true =>
      have hkc : k = c := eq_of_beq h1
      subst hkc
      rw [beq_false_of_ne hca]
    | false =>
      cases h2 : (k == a) <;> rfl
  | trans h1 h2 ih1 ih2 =>
    intro nd k
    rw [ih1 nd k]
    refine ih2 ?_ k
    exact ((h1.map Prod.fst).nodup_iff).mp nd

/-- Pointwise lookup consequences of a keywise Forall₂ relation between
association lists. -/
theorem lookup_forall2 {β : Type} (R : β → β → Prop) {l1 l2 : List (String × β)}
    (h : List.Forall₂ (fun p q => p.1 = q.1 ∧ R p.2 q.2) l1 l2) (k : String) :
    ((l1.lookup k).isSome = (l2.lookup k).isSome) ∧
    (∀ b1 b2, l1.lookup k = some b1 → l2.lookup k = some b2 → R b1 b2) := by
  induction h with
  | nil => exact ⟨rfl, by intro b1 b2 h1 _; cases h1⟩
  | cons hr hrest ih =>
    rename_i p q l1t l2t
    obtain ⟨hk, hR⟩ := hr
    obtain ⟨a, b⟩ := p
    obtain ⟨c, d⟩ := q
    simp only at hk
    subst hk
    simp only [List.lookup_cons]
    cases k == a with
    | true =>
      refine ⟨rfl, ?_⟩
      intro b1 b2 h1 h2
      cases h1
      cases h2
      exact hR
    | false => exact ih

/-- setKey does not disturb the binding of a different key. -/
theorem lookup_setKey_ne {β : Type} (l : List (String × β)) (a k : String) (v : β)
    (h : k ≠ a) : (setKey l a v).lookup k = l.lookup k := by
  induction l with
  | nil =>
    show List.lookup k [(a, v)] = none
    rw [List.lookup_cons, beq_false_of_ne h]
    rfl
  | cons hd tl ih =>
    obtain ⟨x, y⟩ := hd
    simp only [setKey]
    by_cases hx : x = a
    · subst hx
      rw [if_pos rfl, List.lookup_cons, List.lookup_cons, beq_false_of_ne h]
    · rw [if_neg hx, List.lookup_cons, List.lookup_cons]
      cases k == x with
      | true => rfl
      | false => exact ih

/-! ### Map-builder helper lemmas -/

/-- The discard flag of a compiled column does not depend on the
namespace's label list. -/
theorem compileColumn_discard_labels (v : Version) (ns : String) (L1 L2 : List String)
    (n : String) (cm : ColumnMapping) :
    (compileColumn v ns L1 n cm).discard = (compileColumn v ns L2 n cm).discard := by
  unfold compileColumn
  cases versionIncompatible cm v with
  | true => rfl
  | false =>
    simp only [Bool.false_eq_true, if_false]
    cases cm.usage <;> rfl

/-- Compiled namespaces built from permuted enumerations of one column
map: the label lists are permutations and the per-column discard flags
agree. -/
theorem makeDescMapNS_perm (v : Version) (ns : String)
    {m1 m2 : List (String × ColumnMapping)} (h : m1.Perm m2)
    (nd : (m1.map Prod.fst).Nodup) :
    (makeDescMapNS v ns m1).labels.Perm (makeDescMapNS v ns m2).labels ∧
    ∀ col, ((makeDescMapNS v ns m1).columnMappings.lookup col).map MetricMap.discard
         = ((makeDescMapNS v ns m2).columnMappings.lookup col).map MetricMap.discard := by
  constructor
  · exact h.filterMap (fun p => if p.2.usage = .LABEL then some p.1 else none)
  · intro col
    show ((m1.map (fun p => (p.1, compileColumn v ns (labelColumns m1) p.1 p.2))).lookup col).map
            MetricMap.discard
       = ((m2.map (fun p => (p.1, compileColumn v ns (labelColumns m2) p.1 p.2))).lookup col).map
            MetricMap.discard
    rw [lookup_map_pair (fun n cm => compileColumn v ns (labelColumns m1) n cm) m1 col,
        lookup_map_pair (fun n cm => compileColumn v ns (labelColumns m2) n cm) m2 col,
        lookup_perm h nd col]
    cases m2.lookup col with
    | none => rfl
    | some cm =>
      simp only [Option.map_some']
      rw [compileColumn_discard_labels v ns (labelColumns m1) (labelColumns m2) col cm]

/-- Scanning candidates none of which accept the version disables the
namespace. -/
theorem overrideFor_none (v : Version) (l : List OverrideQuery)
    (h : ∀ q ∈ l, q.versionRange v = false) : overrideFor v l = "" := by
  induction l with
  | nil => rfl
  | cons d rest ih =>
    unfold overrideFor
    rw [h d (List.mem_cons_self d rest)]
    exact ih (fun q hq => h q (List.mem_cons_of_mem d hq))

/-- getD inside the image of a map, at an in-range index. -/
theorem getD_map_str (f : String → String) (l : List String) (i : Nat) (h : i < l.length) :
    (l.map f).getD i "" = f (l.getD i "") := by
  induction l generalizing i with
  | nil => cases h
  | cons a t ih =>
    cases i with
    | zero => rfl
    | succ n => exact ih n (Nat.lt_of_succ_lt_succ h)

/-- Folding setKey over an enumeration of names not containing a key
leaves that key's binding unchanged. -/
theorem foldl_setKey_enumFrom_not_mem (lbl : String) :
    ∀ (cols : List String) (n : Nat) (acc : List (String × Nat)), lbl ∉ cols →
      ((cols.enumFrom n).foldl (fun acc p => setKey acc p.2 p.1) acc).lookup lbl
        = acc.lookup lbl := by
  intro cols
  induction cols with
  | nil => intro n acc h; rfl
  | cons c cs ih =>
    intro n acc h
    have hnc : lbl ∉ cs := fun hm => h (List.mem_cons_of_mem c hm)
    have hne : lbl ≠ c := fun he => h (he ▸ List.mem_cons_self c cs)
    show ((cs.enumFrom (n + 1)).foldl (fun acc p => setKey acc p.2 p.1)
            (setKey acc c n)).lookup lbl = acc.lookup lbl
    rw [ih (n + 1) (setKey acc c n) hnc, lookup_setKey_ne acc c lbl n hne]

/-- A name absent from the result columns has no entry in the column
index map. -/
theorem buildIdx_lookup_not_mem (lbl : String) (columns : List String)
    (h : lbl ∉ columns) : (buildIdx columns).lookup lbl = none := by
  show ((columns.enumFrom 0).foldl (fun acc p => setKey acc p.2 p.1) []).lookup lbl = none
  rw [foldl_setKey_enumFrom_not_mem lbl columns 0 [] h]
  rfl

/-- Every sample the column loop emits for one row carries the row's
(fixed) resolved label values. -/
theorem processColumns_labels (ns : String) (mapping : MetricMapNamespace)
    (labels : List String) (row : List GoValue) :
    ∀ cols, ∀ s ∈ (processColumns ns mapping labels row cols).1, s.labels = labels := by
  intro cols
  induction cols with
  | nil => intro s hs; cases hs
  | cons hd rest ih =>
    obtain ⟨idx, cn⟩ := hd
    intro s hs
    simp only [processColumns] at hs
    cases hlk : mapping.columnMappings.lookup cn with
    | some mm =>
      simp only [hlk] at hs
      by_cases hdc : mm.discard = true
      · rw [if_pos hdc] at hs
        exact ih s hs
      · rw [if_neg hdc] at hs
        cases hc : (dbToFloat64 (row.getD idx GoValue.null)).2 with
        | true =>
          rw [hc, if_pos rfl] at hs
          rcases List.mem_cons.mp hs with h1 | h1
          · rw [h1]
          · exact ih s h1
        | false =>
          rw [hc] at hs
          simp only [Bool.false_eq_true, if_false] at hs
          exact ih s hs
    | none =>
      simp only [hlk] at hs
      cases hc : (dbToFloat64 (row.getD idx GoValue.null)).2 with
      | true =>
        rw [hc, if_pos rfl] at hs
        rcases List.mem_cons.mp hs with h1 | h1
        · rw [h1]
        · exact ih s h1
      | false =>
        rw [hc] at hs
        simp only [Bool.false_eq_true, if_false] at hs
        exact ih s hs

/-- The candidate scan returns the first accepted candidate's query. -/
theorem overrideFor_first (v : Version) (l1 l2 : List OverrideQuery) (d : OverrideQuery)
    (h1 : ∀ p ∈ l1, p.versionRange v = false) (h2 : d.versionRange v = true) :
    overrideFor v (l1 ++ d :: l2) = d.query := by
  induction l1 with
  | nil =>
    rw [List.nil_append]
    unfold overrideFor
    rw [h2]
    simp
  | cons p rest ih =>
    rw [List.cons_append]
    unfold overrideFor
    rw [h1 p (List.mem_cons_self p rest)]
    simp only [Bool.false_eq_true, if_false]
    exact ih (fun q hq => h1 q (List.mem_cons_of_mem p hq))

/-! ### Claim theorems -/

/-- C1: for every namespace and column of the catalog, when the column's
supportedVersions predicate is present and rejects the target version,
makeDescMap still compiles the column (never omits it), with
discard=true and a conversion constantly returning (NaN, ok), whatever
the declared usage. -/
theorem makeDescMap_version_gate_discards
    (v : Version) (cat : List (String × List (String × ColumnMapping)))
    (ns col : String) (cols : List (String × ColumnMapping)) (cm : ColumnMapping)
    (r : Range) (hns : cat.lookup ns = some cols) (hcol : cols.lookup col = some cm)
    (hsv : cm.supportedVersions = some r) (hrej : r v = false) :
    ∃ mm : MetricMap,
      ((makeDescMap v cat).lookup ns).bind (fun n => n.columnMappings.lookup col) = some mm
      ∧ mm.discard = true ∧ ∀ x, mm.conversion x = (FloatVal.nan, true, false) := by
  refine ⟨discardMetricMap, ?_, rfl, fun x => rfl⟩
  show ((cat.map (fun p => (p.1, makeDescMapNS v p.1 p.2))).lookup ns).bind
      (fun n => n.columnMappings.lookup col) = some discardMetricMap
  rw [lookup_map_pair (fun nsName m => makeDescMapNS v nsName m) cat ns, hns]
  simp only [Option.map_some', Option.some_bind]
  show (cols.map (fun p => (p.1, compileColumn v ns (labelColumns cols) p.1 p.2))).lookup col
      = some discardMetricMap
  rw [lookup_map_pair (fun n c => compileColumn v ns (labelColumns cols) n c) cols col, hcol]
  simp only [Option.map_some']
  unfold compileColumn versionIncompatible
  simp only [hsv]
  rw [hrej]
  simp

/-- C1 witness: the 10.0.0-gated lag column of pg_stat_replication is
discarded, but still present, when compiling for version 9.6.2. -/
theorem makeDescMap_version_gate_discards_witness :
    ∃ mm : MetricMap,
      ((makeDescMap ver962 replicationCatalogExcerpt).lookup "pg_stat_replication").bind
        (fun n => n.columnMappings.lookup "pg_wal_lsn_diff") = some mm
      ∧ mm.discard = true ∧ ∀ x, mm.conversion x = (FloatVal.nan, true, false) :=
  makeDescMap_version_gate_discards ver962 replicationCatalogExcerpt
    "pg_stat_replication" "pg_wal_lsn_diff" _
    ⟨.GAUGE, "Lag in bytes between master and slave", [], some (rangeGE ⟨10, 0, 0⟩)⟩
    (rangeGE ⟨10, 0, 0⟩) rfl rfl rfl (by decide)

/-- C4: a namespace none of whose override candidates accept the target
version is mapped by makeQueryOverrideMap to the empty string (present,
meaning disabled); and a namespace whose effective override entry is the
empty string yields zero samples, zero non-fatal errors and no fatal
error from queryNamespaceMapping. -/
theorem override_disabled_namespace :
    (∀ (v : Version) (cat : List (String × List OverrideQuery)) (ns : String)
        (l : List OverrideQuery), cat.lookup ns = some l →
        (∀ q ∈ l, q.versionRange v = false) →
        (makeQueryOverrideMap v cat).lookup ns = some "") ∧
    (∀ (run : String → Except String QueryResult) (ns : String)
        (mapping : MetricMapNamespace) (ovr : List (String × String)),
        ovr.lookup ns = some "" →
        queryNamespaceMapping run ns mapping ovr = ([], [], none)) := by
  constructor
  · intro v cat ns l hl hnone
    show (cat.map (fun p => (p.1, overrideFor v p.2))).lookup ns = some ""
    rw [lookup_map_pair (fun _ defs => overrideFor v defs) cat ns, hl]
    simp only [Option.map_some']
    rw [overrideFor_none v l hnone]
  · intro run ns mapping ovr hov
    unfold queryNamespaceMapping
    rw [hov]
    simp

/-- C4 witness: a sole candidate gated to 10.0.0 at resolved version
9.2.0 disables its namespace, and a disabled namespace scrapes to
nothing. -/
theorem override_disabled_namespace_witness :
    (makeQueryOverrideMap ver920 overridesGE10).lookup "pg_stat_activity" = some "" ∧
    queryNamespaceMapping mismatchedLabelRun "pg_stat_activity" ⟨[], []⟩
      [("pg_stat_activity", "")] = ([], [], none) := by
  constructor
  · refine override_disabled_namespace.1 ver920 overridesGE10 "pg_stat_activity" _ rfl ?_
    intro q hq
    rw [List.mem_singleton] at hq
    subst hq
    decide
  · exact override_disabled_namespace.2 mismatchedLabelRun "pg_stat_activity" ⟨[], []⟩
      [("pg_stat_activity", "")] rfl

/-- C9: when several override candidates accept the target version,
makeQueryOverrideMap deterministically selects the first match in the
candidate list's declaration order. -/
theorem makeQueryOverrideMap_first_match
    (v : Version) (cat : List (String × List OverrideQuery)) (ns : String)
    (l1 l2 : List OverrideQuery) (d : OverrideQuery)
    (hl : cat.lookup ns = some (l1 ++ d :: l2))
    (h1 : ∀ p ∈ l1, p.versionRange v = false) (h2 : d.versionRange v = true) :
    (makeQueryOverrideMap v cat).lookup ns = some d.query := by
  show (cat.map (fun p => (p.1, overrideFor v p.2))).lookup ns = some d.query
  rw [lookup_map_pair (fun _ defs => overrideFor v defs) cat ns, hl]
  simp only [Option.map_some']
  rw [overrideFor_first v l1 l2 d h1 h2]

/-- C9 witness: of three candidates where the second and third both
accept 9.2.0, the second (first matching, in declaration order) wins. -/
theorem makeQueryOverrideMap_first_match_witness :
    (makeQueryOverrideMap ver920 overridesMulti).lookup "pg_stat_replication"
      = some "query for 9.2 and later" := by
  refine makeQueryOverrideMap_first_match ver920 overridesMulti "pg_stat_replication"
    [⟨rangeGE ⟨10, 0, 0⟩, "query for 10 and later"⟩]
    [⟨rangeGE ⟨0, 0, 1⟩, "query for anything"⟩]
    ⟨rangeGE ⟨9, 2, 0⟩, "query for 9.2 and later"⟩ rfl ?_ (by decide)
  intro p hp
  rw [List.mem_singleton] at hp
  subst hp
  decide

/-- C6: a DURATION column whose version gate accepts the target compiles
to a descriptor suffixed _milliseconds whose conversion rejects the
sentinel "-1" without an error log, rejects other unparseable text (with
a log), and reports parseable durations in milliseconds. -/
theorem duration_column_compilation
    (v : Version) (cat : List (String × List (String × ColumnMapping)))
    (ns col : String) (cols : List (String × ColumnMapping)) (cm : ColumnMapping)
    (hns : cat.lookup ns = some cols) (hcol : cols.lookup col = some cm)
    (husage : cm.usage = .DURATION) (hver : versionIncompatible cm v = false) :
    ∃ mm : MetricMap,
      ((makeDescMap v cat).lookup ns).bind (fun n => n.columnMappings.lookup col) = some mm
      ∧ mm.desc = some ⟨ns ++ "_" ++ col ++ "_milliseconds", cm.description, labelColumns cols⟩
      ∧ mm.conversion (.str "-1") = (.nan, false, false)
      ∧ mm.conversion (.bytes "-1") = (.nan, false, false)
      ∧ (∀ s : String, s ≠ "-1" → parseDuration s = none →
          mm.conversion (.str s) = (.nan, false, true))
      ∧ (∀ (s : String) (d : Int), parseDuration s = some d →
          mm.conversion (.str s) = (.num ((d.tdiv 1000000 : Int) : ℚ), true, false))
      ∧ mm.conversion (.str "1500ms") = (.num 1500, true, false) := by
  refine ⟨{ discard := false, vtype := .gauge,
            desc := some ⟨ns ++ "_" ++ col ++ "_milliseconds", cm.description, labelColumns cols⟩,
            conversion := durationConv },
          ?_, rfl, rfl, rfl, ?_, ?_, ?_⟩
  · show ((cat.map (fun p => (p.1, makeDescMapNS v p.1 p.2))).lookup ns).bind
        (fun n => n.columnMappings.lookup col) = _
    rw [lookup_map_pair (fun nsName m => makeDescMapNS v nsName m) cat ns, hns]
    simp only [Option.map_some', Option.some_bind]
    show (cols.map (fun p => (p.1, compileColumn v ns (labelColumns cols) p.1 p.2))).lookup col = _
    rw [lookup_map_pair (fun n c => compileColumn v ns (labelColumns cols) n c) cols col, hcol]
    simp only [Option.map_some']
    unfold compileColumn
    rw [hver]
    simp only [husage]
    simp
  · intro s hs hp
    show durationStringConv s = (.nan, false, true)
    unfold durationStringConv
    rw [beq_false_of_ne hs]
    simp only [Bool.false_eq_true, if_false]
    rw [hp]
  · intro s d hp
    show durationStringConv s = (.num ((d.tdiv 1000000 : Int) : ℚ), true, false)
    by_cases hs : s = "-1"
    · subst hs
      rw [show parseDuration "-1" = none from rfl] at hp
      cases hp
    · unfold durationStringConv
      rw [beq_false_of_ne hs]
      simp only [Bool.false_eq_true, if_false]
      rw [hp]
  · show durationStringConv "1500ms" = (.num 1500, true, false)
    rw [show durationStringConv "1500ms" = (.num ((1500 : ℤ) : ℚ), true, false) from rfl]
    norm_num

/-- C6 witness: a user-declared DURATION column compiles as described. -/
theorem duration_column_compilation_witness :
    ∃ mm : MetricMap,
      ((makeDescMap ver962 durationCatalog).lookup "user_ns").bind
        (fun n => n.columnMappings.lookup "backup_duration") = some mm
      ∧ mm.desc = some ⟨"user_ns" ++ "_" ++ "backup_duration" ++ "_milliseconds",
          "duration of the last backup", labelColumns [("backup_duration",
            ⟨.DURATION, "duration of the last backup", [], none⟩)]⟩
      ∧ mm.conversion (.str "-1") = (.nan, false, false)
      ∧ mm.conversion (.bytes "-1") = (.nan, false, false)
      ∧ (∀ s : String, s ≠ "-1" → parseDuration s = none →
          mm.conversion (.str s) = (.nan, false, true))
      ∧ (∀ (s : String) (d : Int), parseDuration s = some d →
          mm.conversion (.str s) = (.num ((d.tdiv 1000000 : Int) : ℚ), true, false))
      ∧ mm.conversion (.str "1500ms") = (.num 1500, true, false) :=
  duration_column_compilation ver962 durationCatalog "user_ns" "backup_duration"
    [("backup_duration", ⟨.DURATION, "duration of the last backup", [], none⟩)]
    ⟨.DURATION, "duration of the last backup", [], none⟩ rfl rfl rfl rfl

/-- C5: the numeric coercion maps int64, float64 and timestamps to their
values with success, parses byte-strings and strings as decimal floats
("3.14" gives 3.14), maps null to (NaN, success), and fails (NaN, not
ok) on unparseable text and every other shape. -/
theorem dbToFloat64_coercion :
    (∀ n : Int, dbToFloat64 (.int n) = (.num (n : ℚ), true)) ∧
    (∀ f : FloatVal, dbToFloat64 (.float f) = (f, true)) ∧
    (∀ t : Int, dbToFloat64 (.time t) = (.num (t : ℚ), true)) ∧
    (∀ (s : String) (q : ℚ), parseDecFloat s = some q →
        dbToFloat64 (.bytes s) = (.num q, true) ∧ dbToFloat64 (.str s) = (.num q, true)) ∧
    (∀ s : String, parseDecFloat s = none →
        dbToFloat64 (.bytes s) = (.nan, false) ∧ dbToFloat64 (.str s) = (.nan, false)) ∧
    dbToFloat64 (.bytes "3.14") = (.num (157 / 50), true) ∧
    dbToFloat64 .null = (.nan, true) ∧
    dbToFloat64 (.str "abc") = (.nan, false) ∧
    (∀ b : Bool, dbToFloat64 (.bool b) = (.nan, false)) := by
  refine ⟨fun n => rfl, fun f => rfl, fun t => rfl, ?_, ?_, ?_, rfl, ?_, fun b => rfl⟩
  · intro s q hp
    constructor <;> simp [dbToFloat64, hp]
  · intro s hp
    constructor <;> simp [dbToFloat64, hp]
  · have hp : parseDecFloat "3.14" = some (157 / 50) := by
      rw [show parseDecFloat "3.14"
            = some ((1 : ℚ) * (((3 : ℕ) : ℚ) + ((14 : ℕ) : ℚ) / 10 ^ 2)) from rfl]
      norm_num
    simp [dbToFloat64, hp]
  · have hp : parseDecFloat "abc" = none := rfl
    simp [dbToFloat64, hp]

/-- C5 witness: the parse clauses at the concrete text "2.5". -/
theorem dbToFloat64_coercion_witness :
    parseDecFloat "2.5" = some (5 / 2) ∧ dbToFloat64 (.bytes "2.5") = (.num (5 / 2), true) := by
  have hp : parseDecFloat "2.5" = some (5 / 2) := by
    rw [show parseDecFloat "2.5"
          = some ((1 : ℚ) * (((2 : ℕ) : ℚ) + ((5 : ℕ) : ℚ) / 10 ^ 1)) from rfl]
    norm_num
  exact ⟨hp, (dbToFloat64_coercion.2.2.2.1 "2.5" (5 / 2) hp).1⟩

/-- C7 counterexample: dbToString can fail; its default case returns
(empty, not-ok), reachable with a boolean driver value. -/
theorem dbToString_never_fails_counterexample :
    ¬ (∀ val : GoValue, (dbToString val).2 = true) := by
  intro h
  have hb := h (.bool true)
  simp [dbToString] at hb

/-- C7 (amended): dbToString succeeds on every accepted driver shape,
rendering numbers and timestamps to text, byte-strings and strings to
themselves and null to the empty string; any other shape (a bool, for
instance) yields (empty string, not-ok). -/
theorem dbToString_rendering :
    (∀ n : Int, dbToString (.int n) = (toString n, true)) ∧
    (∀ f : FloatVal, dbToString (.float f) = (goFormatFloat f, true)) ∧
    (∀ t : Int, dbToString (.time t) = (toString t, true)) ∧
    dbToString .null = ("", true) ∧
    (∀ s : String, dbToString (.bytes s) = (s, true)) ∧
    (∀ s : String, dbToString (.str s) = (s, true)) ∧
    (∀ b : Bool, dbToString (.bool b) = ("", false)) :=
  ⟨fun n => rfl, fun f => rfl, fun t => rfl, rfl, fun s => rfl, fun s => rfl, fun b => rfl⟩

/-- C8 counterexample: a banner containing a dotted numeric version token
that does not immediately follow the leading word fails to parse (the
regex is anchored at the start of the string). -/
theorem parseVersion_token_not_sufficient :
    containsDottedToken "foo bar 9.6.2" = true ∧
    exceptIsOk (parseVersion "foo bar 9.6.2") = false := by
  constructor <;> decide

/-- C8 (amended): parseVersion succeeds only on banners that start with
a word, one space and a digit — the version token must immediately
follow the first word; on such banners the major(.minor)?(.patch)?
token is extracted, missing components defaulting to zero. -/
theorem parseVersion_leading_token :
    (∀ s : String,
        (¬ ∃ (w : List Char) (d : Char) (t : List Char),
            s.data = w ++ ' ' :: d :: t ∧ w ≠ [] ∧ (∀ c ∈ w, wordChar c = true) ∧
            d.isDigit = true) →
        exceptIsOk (parseVersion s) = false) ∧
    parseVersion "PostgreSQL 9.6.2 on x86_64-pc-linux-gnu" = .ok ⟨9, 6, 2⟩ ∧
    parseVersion "PostgreSQL 10.1" = .ok ⟨10, 1, 0⟩ ∧
    parseVersion "EnterpriseDB 11 some extra" = .ok ⟨11, 0, 0⟩ := by
  refine ⟨?_, rfl, rfl, rfl⟩
  intro s h
  cases hh : exceptIsOk (parseVersion s) with
  | false => rfl
  | true =>
    exfalso
    apply h
    simp only [parseVersion] at hh
    split at hh
    case h_2 => simp [exceptIsOk] at hh
    case h_1 r2 heq =>
      split at hh
      · simp [exceptIsOk] at hh
      · split at hh
        · simp [exceptIsOk] at hh
        · rename_i hw hds
          have hwne : s.data.takeWhile wordChar ≠ [] := by
            intro hemp
            exact hw (by simp [hemp])
          have hdsne : r2.takeWhile Char.isDigit ≠ [] := by
            intro hemp
            exact hds (by simp [hemp])
          rcases hcons : r2.takeWhile Char.isDigit with _ | ⟨d, ds2⟩
          · exact absurd hcons hdsne
          · obtain ⟨t0, ht0⟩ : ∃ t0, r2.dropWhile Char.isDigit = t0 := ⟨_, rfl⟩
            obtain ⟨w0, hw0⟩ : ∃ w0, s.data.takeWhile wordChar = w0 := ⟨_, rfl⟩
            have hr2 : r2 = d :: (ds2 ++ t0) := by
              have hsplit := List.takeWhile_append_dropWhile (p := Char.isDigit) (l := r2)
              rw [hcons, ht0] at hsplit
              exact hsplit.symm
            have hsd : s.data = w0 ++ ' ' :: r2 := by
              conv_lhs => rw [← List.takeWhile_append_dropWhile (p := wordChar) (l := s.data)]
              rw [heq, hw0]
            refine ⟨w0, d, ds2 ++ t0, ?_, ?_, ?_, ?_⟩
            · rw [hsd, hr2]
            · rw [← hw0]
              exact hwne
            · intro c hc
              have hall := List.all_takeWhile (p := wordChar) (l := s.data)
              rw [hw0] at hall
              exact (List.all_eq_true.mp hall) c hc
            · have hall := List.all_takeWhile (p := Char.isDigit) (l := r2)
              rw [hcons] at hall
              exact (List.all_eq_true.mp hall) d (List.mem_cons_self d ds2)

/-- C8 witness: the degenerate banner "9.6.2" has no leading word
followed by a space, so the resolver rejects it. -/
theorem parseVersion_leading_token_witness :
    exceptIsOk (parseVersion "9.6.2") = false := by
  refine parseVersion_leading_token.1 "9.6.2" ?_
  rintro ⟨w, d, t, heq, -, -, -⟩
  have hsp : ' ' ∈ "9.6.2".data := by
    rw [heq]
    exact List.mem_append.mpr (Or.inr (List.mem_cons_self _ _))
  revert hsp
  decide

/-- C3: addQueries is atomic on failure — whenever it does not end in a
normal merge (yaml unmarshalling failure, unknown usage string, or a
structurally unexpected document) the exporter map and the override map
are returned exactly as given; and the BOGUS-usage document in
particular returns an error and changes nothing. -/
theorem addQueries_atomic_on_failure :
    (∀ (doc : Except String (List (String × Yaml))) (v : Version)
        (em : List (String × MetricMapNamespace)) (qm : List (String × String)),
        (addQueries doc v em qm).2.2 ≠ AQOutcome.ok →
        (addQueries doc v em qm).1 = em ∧ (addQueries doc v em qm).2.1 = qm) ∧
    (∀ (v : Version) (em : List (String × MetricMapNamespace))
        (qm : List (String × String)),
        addQueries (.ok bogusUserDoc) v em qm
          = (em, qm, .err "wrong ColumnUsage given : BOGUS")) := by
  constructor
  · intro doc v em qm h
    cases doc with
    | error e => exact ⟨rfl, rfl⟩
    | ok extra =>
      cases hp : parseExtra extra ([], []) with
      | error f =>
        cases f <;> simp [addQueries, hp]
      | ok st =>
        exfalso
        apply h
        simp [addQueries, hp]
  · intro v em qm
    rfl

/-- C3 witness: merging the BOGUS document into a non-trivial
pre-existing state errors out and leaves both maps untouched. -/
theorem addQueries_atomic_on_failure_witness :
    (addQueries (.ok bogusUserDoc) ver962 preexistingExporterMap [("pg_locks", "q")]).2.2
        ≠ AQOutcome.ok ∧
    (addQueries (.ok bogusUserDoc) ver962 preexistingExporterMap [("pg_locks", "q")]).1
        = preexistingExporterMap ∧
    (addQueries (.ok bogusUserDoc) ver962 preexistingExporterMap [("pg_locks", "q")]).2.1
        = [("pg_locks", "q")] := by
  have heq := addQueries_atomic_on_failure.2 ver962 preexistingExporterMap [("pg_locks", "q")]
  have h : (addQueries (.ok bogusUserDoc) ver962 preexistingExporterMap
      [("pg_locks", "q")]).2.2 ≠ AQOutcome.ok := by
    rw [heq]
    intro hc
    cases hc
  exact ⟨h, addQueries_atomic_on_failure.1 (.ok bogusUserDoc) ver962
    preexistingExporterMap [("pg_locks", "q")] h⟩

/-- C2 counterexample: two enumerations of the same namespace column map
(the same Go map iterated in two different orders) compile to label
lists in different orders, so "same label lists, in catalog declaration
order" fails: the label order follows the unspecified map iteration
order. -/
theorem makeDescMap_label_order_counterexample :
    List.Perm [("a", labelCM ""), ("b", labelCM "")] [("b", labelCM ""), ("a", labelCM "")] ∧
    ((makeDescMap ver962 twoLabelCatalogA).lookup "ns").map MetricMapNamespace.labels
      = some ["a", "b"] ∧
    ((makeDescMap ver962 twoLabelCatalogB).lookup "ns").map MetricMapNamespace.labels
      = some ["b", "a"] ∧
    (some ["a", "b"] : Option (List String)) ≠ some ["b", "a"] := by
  refine ⟨List.Perm.swap _ _ _, rfl, rfl, by decide⟩

/-- C2 (amended): rebuilding is deterministic up to Go's unspecified map
iteration order — for any two enumerations of the same catalog, the
compiled maps have the same namespaces, per-namespace label lists that
are permutations of each other, and identical per-column discard flags;
the label-list order itself follows the enumeration order. -/
theorem makeDescMap_enum_invariance
    (v : Version) (cat1 catMid cat2 : List (String × List (String × ColumnMapping)))
    (houter : cat1.Perm catMid)
    (hnd : (cat1.map Prod.fst).Nodup)
    (hinner : List.Forall₂
        (fun p q => p.1 = q.1 ∧ (p.2.Perm q.2 ∧ (p.2.map Prod.fst).Nodup)) catMid cat2) :
    (∀ ns, ((makeDescMap v cat1).lookup ns).isSome
            = ((makeDescMap v cat2).lookup ns).isSome) ∧
    (∀ ns n1 n2, (makeDescMap v cat1).lookup ns = some n1 →
        (makeDescMap v cat2).lookup ns = some n2 →
        n1.labels.Perm n2.labels ∧
        ∀ col, (n1.columnMappings.lookup col).map MetricMap.discard
             = (n2.columnMappings.lookup col).map MetricMap.discard) := by
  have hmid : ∀ ns, cat1.lookup ns = catMid.lookup ns := fun ns => lookup_perm houter hnd ns
  have hf2 := fun ns => lookup_forall2
    (fun m1 m2 : List (String × ColumnMapping) => m1.Perm m2 ∧ (m1.map Prod.fst).Nodup)
    hinner ns
  have hmk : ∀ (c : List (String × List (String × ColumnMapping))) ns,
      (makeDescMap v c).lookup ns = (c.lookup ns).map (fun m => makeDescMapNS v ns m) := by
    intro c ns
    exact lookup_map_pair (fun n m => makeDescMapNS v n m) c ns
  constructor
  · intro ns
    rw [hmk cat1 ns, hmk cat2 ns, hmid ns]
    cases hc : catMid.lookup ns with
    | none =>
      have := (hf2 ns).1
      rw [hc] at this
      cases hc2 : cat2.lookup ns with
      | none => rfl
      | some m2 => rw [hc2] at this; simp at this
    | some m1 =>
      have := (hf2 ns).1
      rw [hc] at this
      cases hc2 : cat2.lookup ns with
      | none => rw [hc2] at this; simp at this
      | some m2 => rfl
  · intro ns n1 n2 h1 h2
    rw [hmk cat1 ns, hmid ns] at h1
    rw [hmk cat2 ns] at h2
    rcases Option.map_eq_some'.mp h1 with ⟨m1, hm1, hn1⟩
    rcases Option.map_eq_some'.mp h2 with ⟨m2, hm2, hn2⟩
    have hR := (hf2 ns).2 m1 m2 hm1 hm2
    subst hn1
    subst hn2
    exact makeDescMapNS_perm v ns hR.1 hR.2

/-- C2 witness: the amended invariance applied to the two concrete
enumerations of the two-label catalog. -/
theorem makeDescMap_enum_invariance_witness :
    (∀ ns, ((makeDescMap ver962 twoLabelCatalogA).lookup ns).isSome
            = ((makeDescMap ver962 twoLabelCatalogB).lookup ns).isSome) ∧
    (∀ ns n1 n2, (makeDescMap ver962 twoLabelCatalogA).lookup ns = some n1 →
        (makeDescMap ver962 twoLabelCatalogB).lookup ns = some n2 →
        n1.labels.Perm n2.labels ∧
        ∀ col, (n1.columnMappings.lookup col).map MetricMap.discard
             = (n2.columnMappings.lookup col).map MetricMap.discard) :=
  makeDescMap_enum_invariance ver962 twoLabelCatalogA twoLabelCatalogA twoLabelCatalogB
    (List.Perm.refl _) (by decide)
    (List.Forall₂.cons ⟨rfl, List.Perm.swap _ _ _, by decide⟩ List.Forall₂.nil)

/-- C10: when a label column name is missing from the query result, the
row is still processed — no fatal error arises, and that label resolves
through the Go zero index 0 to the value rendered from the first
returned column. -/
theorem missing_label_column_defaults_to_first
    (run : String → Except String QueryResult) (ns : String)
    (mapping : MetricMapNamespace) (columns : List String) (r : List GoValue)
    (hcols : columns ≠ []) (hlen : r.length = columns.length)
    (hrun : run ("SELECT * FROM " ++ ns ++ ";") = .ok ⟨columns, [.ok r]⟩) :
    (queryNamespaceMapping run ns mapping []).2.2 = none ∧
    (∀ i, i < mapping.labels.length → mapping.labels.getD i "" ∉ columns →
        (resolveLabels mapping.labels (buildIdx columns) r).getD i ""
          = (dbToString (r.getD 0 GoValue.null)).1) ∧
    (∀ s ∈ (queryNamespaceMapping run ns mapping []).1,
        s.labels = resolveLabels mapping.labels (buildIdx columns) r) := by
  have hq : queryNamespaceMapping run ns mapping []
      = ((processColumns ns mapping (resolveLabels mapping.labels (buildIdx columns) r)
            r columns.enum).1 ++ [],
         (processColumns ns mapping (resolveLabels mapping.labels (buildIdx columns) r)
            r columns.enum).2 ++ [],
         none) := by
    simp only [queryNamespaceMapping, List.lookup_nil, runAndProcess, hrun, processRows]
  refine ⟨by rw [hq], ?_, ?_⟩
  · intro i hi hnot
    unfold resolveLabels
    rw [getD_map_str (fun name =>
        (dbToString (r.getD ((List.lookup name (buildIdx columns)).getD 0) GoValue.null)).1)
        mapping.labels i hi]
    rw [buildIdx_lookup_not_mem (mapping.labels.getD i "") columns hnot]
    rfl
  · intro s hs
    rw [hq] at hs
    simp only [List.append_nil] at hs
    exact processColumns_labels ns mapping
      (resolveLabels mapping.labels (buildIdx columns) r) r columns.enum s hs

/-- C10 witness: a namespace whose only label column "missing_col" is
not among the returned columns still scrapes without error, the label
rendering the first column's value 7. -/
theorem missing_label_column_defaults_to_first_witness :
    (queryNamespaceMapping mismatchedLabelRun "tns"
        (makeDescMapNS ver962 "tns" mismatchedLabelCatalog) []).2.2 = none ∧
    (∀ i, i < (makeDescMapNS ver962 "tns" mismatchedLabelCatalog).labels.length →
        (makeDescMapNS ver962 "tns" mismatchedLabelCatalog).labels.getD i "" ∉ ["val"] →
        (resolveLabels (makeDescMapNS ver962 "tns" mismatchedLabelCatalog).labels
            (buildIdx ["val"]) [.int 7]).getD i ""
          = (dbToString (([GoValue.int 7]).getD 0 GoValue.null)).1) ∧
    (∀ s ∈ (queryNamespaceMapping mismatchedLabelRun "tns"
        (makeDescMapNS ver962 "tns" mismatchedLabelCatalog) []).1,
        s.labels = resolveLabels (makeDescMapNS ver962 "tns" mismatchedLabelCatalog).labels
          (buildIdx ["val"]) [.int 7]) :=
  missing_label_column_defaults_to_first mismatchedLabelRun "tns"
    (makeDescMapNS ver962 "tns" mismatchedLabelCatalog) ["val"] [.int 7]
    (by simp) rfl rfl

end PG
